import Mathlib

/-!
Verification of the web3-security-dashboard scan core.

The definitions below are a shallow embedding of the TypeScript sources:
  - backend/services/analysis/bytecodeAnalyzer.ts (opcode catalog, bytecode
    scanner, ABI heuristic scanner, risk aggregator),
  - backend/services/scanService.ts (scan lifecycle: createScanRequest,
    updateScanStatus, processScanJob, getScanById),
  - backend/services/cacheService.ts (cache reads/writes, modelled as
    effect oracles since Redis is external).
JavaScript numbers on these code paths are small integers (opcode values,
string lengths, counters), embedded as Nat.  The keccak-256 hash invoked
from the ethers library is implemented executably below.
-/

/-! ## String helpers (JS string semantics on the relevant operations) -/

/-- JS String.prototype.toLowerCase restricted to ASCII, which is all the
source ever lowercases (hex strings and ABI function names). -/
def toLowerStr (s : String) : String := String.mk (s.toList.map Char.toLower)

/-- Tests whether the first list is an initial segment of the second. -/
def leadsWith : List Char → List Char → Bool
  | [], _ => true
  | c :: cs, hay =>
    match hay with
    | [] => false
    | d :: ds => c == d && leadsWith cs ds

/-- JS String.prototype.includes: does hay contain needle as a contiguous
substring (an empty needle is always contained). -/
def charListContains : List Char → List Char → Bool
  | [], needle => needle.isEmpty
  | c :: t, needle => leadsWith needle (c :: t) || charListContains t needle

/-- JS s.includes(sub). -/
def strIncludes (s sub : String) : Bool := charListContains s.toList sub.toList

/-- JS s.startsWith(p). -/
def strStartsWith (s p : String) : Bool := leadsWith p.toList s.toList

/-- Value of one hexadecimal digit, if the character is one. -/
def hexDigit? (c : Char) : Option Nat :=
  if '0' ≤ c ∧ c ≤ '9' then some (c.toNat - 48)
  else if 'a' ≤ c ∧ c ≤ 'f' then some (c.toNat - 87)
  else if 'A' ≤ c ∧ c ≤ 'F' then some (c.toNat - 55)
  else none

/-- Accumulate hexadecimal digits until the first non-digit, as JS parseInt
does after its first digit. -/
def parseHexDigits : List Char → Nat → Nat
  | [], acc => acc
  | c :: rest, acc =>
    match hexDigit? c with
    | none => acc
    | some d => parseHexDigits rest (16 * acc + d)

/-- JS parseInt(s, 16) on the scanner's slices: an optional 0x/0X marker is
skipped, then the longest run of leading hex digits is parsed; no digits
gives NaN, embedded as none.  The slices come from inside the bytecode body,
so the whitespace/sign handling of parseInt never fires on them. -/
def parseIntHex (s : List Char) : Option Nat :=
  match s with
  | '0' :: 'x' :: rest | '0' :: 'X' :: rest =>
    match rest with
    | [] => none
    | c :: rest2 => (hexDigit? c).map (fun d => parseHexDigits rest2 d)
  | c :: rest => (hexDigit? c).map (fun d => parseHexDigits rest d)
  | [] => none

/-- Lowercase hexadecimal digit character for a value below 16. -/
def hexCharOfNat (d : Nat) : Char :=
  if d < 10 then Char.ofNat (48 + d) else Char.ofNat (87 + d)

/-- Two lowercase hex characters of one byte. -/
def byteToHexChars (b : Nat) : List Char := [hexCharOfNat (b / 16), hexCharOfNat (b % 16)]

/-- 0x-prefixed lowercase hex rendering of a byte list, as ethers hexlify
produces for hash results. -/
def bytesToHex (bs : List Nat) : String :=
  "0x" ++ String.mk (bs.foldr (fun b acc => byteToHexChars b ++ acc) [])

/-- Decode pairs of hex characters into bytes; none when a character is not
a hex digit or the length is odd (ethers rejects such input). -/
def hexPairsToBytes? : List Char → Option (List Nat)
  | [] => some []
  | [_] => none
  | c1 :: c2 :: rest => do
    let d1 ← hexDigit? c1
    let d2 ← hexDigit? c2
    let bs ← hexPairsToBytes? rest
    pure ((16 * d1 + d2) :: bs)

/-! ## Keccak-256 (the hash ethers.keccak256 computes)

State is 25 lanes of 64 bits, index x + 5 * y, each lane a Nat kept below
2 ^ 64.  Rate 1088 bits = 136 bytes, original Keccak 0x01 padding. -/

def mask64 : Nat := 2 ^ 64 - 1

def rotl64 (x n : Nat) : Nat := ((x <<< n) ||| (x >>> (64 - n))) &&& mask64

/-- One step of the 8-bit LFSR (polynomial x^8 + x^6 + x^5 + x^4 + 1) that
generates the round-constant bits: the output is the low bit of the
register before shifting. -/
def lfsrStep (r : Nat) : Nat × Nat :=
  (r &&& 1, if r &&& 0x80 = 0 then (r <<< 1) &&& 0xff else ((r <<< 1) ^^^ 0x71) &&& 0xff)

/-- One round constant: bit (2 ^ j - 1) of the constant is the j-th LFSR
output bit of that round, for j below 7. -/
def nextRC (lfsr : Nat) : Nat × Nat :=
  (List.range 7).foldl
    (fun acc j =>
      let s := lfsrStep acc.2
      (acc.1 ^^^ (s.1 <<< ((1 <<< j) - 1)), s.2))
    (0, lfsr)

def genRC : Nat → Nat → List Nat
  | 0, _ => []
  | n + 1, lfsr =>
    let s := nextRC lfsr
    s.1 :: genRC n s.2

/-- The 24 Keccak-f[1600] round constants, generated by the standard LFSR
(validated end to end by the known digest of the empty message proved
below). -/
def keccakRC : List Nat := genRC 24 1

/-- The rho offsets: walking (x, y) to (y, (2x + 3y) mod 5) from (1, 0),
the lane visited at step t rotates by (t+1)(t+2)/2 mod 64; lane 0 does not
rotate. -/
def rhoWalk : Nat → Nat → Nat → Nat → List (Nat × Nat)
  | 0, _, _, _ => []
  | n + 1, t, x, y =>
    (x + 5 * y, ((t + 1) * (t + 2) / 2) % 64) :: rhoWalk n (t + 1) y ((2 * x + 3 * y) % 5)

def rhoTable : List (Nat × Nat) := rhoWalk 24 0 1 0

def rhoOffset (i : Nat) : Nat :=
  ((rhoTable.find? (fun p => p.1 == i)).map (fun p => p.2)).getD 0

/-- The pi permutation sends the lane at index i = x + 5y to index
y + 5 * ((2x + 3y) mod 5). -/
def piTarget (i : Nat) : Nat := i / 5 + 5 * ((2 * (i % 5) + 3 * (i / 5)) % 5)

/-- Source lane index feeding target index t under pi. -/
def piSource (t : Nat) : Nat :=
  ((List.range 25).find? (fun i => piTarget i == t)).getD 0

def thetaStep (A : List Nat) : List Nat :=
  let C := (List.range 5).map fun x =>
    A.getD x 0 ^^^ A.getD (x + 5) 0 ^^^ A.getD (x + 10) 0 ^^^ A.getD (x + 15) 0 ^^^ A.getD (x + 20) 0
  let D := (List.range 5).map fun x =>
    C.getD ((x + 4) % 5) 0 ^^^ rotl64 (C.getD ((x + 1) % 5) 0) 1
  (List.range 25).map fun i => A.getD i 0 ^^^ D.getD (i % 5) 0

def rhoPiStep (A : List Nat) : List Nat :=
  (List.range 25).map fun t =>
    let s := piSource t
    rotl64 (A.getD s 0) (rhoOffset s)

def chiStep (B : List Nat) : List Nat :=
  (List.range 25).map fun i =>
    let x := i % 5
    let y := i / 5
    B.getD i 0 ^^^ (((B.getD ((x + 1) % 5 + 5 * y) 0) ^^^ mask64) &&& B.getD ((x + 2) % 5 + 5 * y) 0)

def iotaStep (A : List Nat) (rc : Nat) : List Nat :=
  match A with
  | [] => []
  | a :: rest => (a ^^^ rc) :: rest

def keccakRound (A : List Nat) (rc : Nat) : List Nat :=
  iotaStep (chiStep (rhoPiStep (thetaStep A))) rc

def keccakF (A : List Nat) : List Nat := keccakRC.foldl keccakRound A

def keccakRate : Nat := 136

/-- Original Keccak pad10*1 with domain byte 0x01 (not the SHA-3 0x06). -/
def pad101 (msg : List Nat) : List Nat :=
  let padLen := keccakRate - msg.length % keccakRate
  if padLen = 1 then msg ++ [0x81]
  else msg ++ [0x01] ++ List.replicate (padLen - 2) 0 ++ [0x80]

/-- Little-endian 64-bit lane from up to eight bytes. -/
def laneOfBytes (bs : List Nat) : Nat := bs.foldr (fun b acc => acc * 256 + b) 0

def blockLanes (block : List Nat) : List Nat :=
  (List.range 17).map fun j => laneOfBytes ((block.drop (8 * j)).take 8)

def absorbBlock (A : List Nat) (block : List Nat) : List Nat :=
  let lanes := blockLanes block
  keccakF ((List.range 25).map fun i => A.getD i 0 ^^^ (if i < 17 then lanes.getD i 0 else 0))

/-- Split into rate-sized blocks (the padded message length is always a
positive multiple of the rate, so the blocks are exact). -/
def chunksOfRate (l : List Nat) : List (List Nat) :=
  (List.range ((l.length + keccakRate - 1) / keccakRate)).map
    (fun i => (l.drop (i * keccakRate)).take keccakRate)

/-- Little-endian bytes of one 64-bit lane. -/
def laneBytes (lane : Nat) : List Nat :=
  (List.range 8).map fun k => (lane >>> (8 * k)) &&& 255

/-- Keccak-256 digest (32 bytes) of a byte list. -/
def keccak256Bytes (msg : List Nat) : List Nat :=
  let A := (chunksOfRate (pad101 msg)).foldl absorbBlock (List.replicate 25 0)
  (((List.range 4).map fun j => laneBytes (A.getD j 0)).foldr (· ++ ·) []).take 32

/-- ethers.keccak256 applied to a hex string: requires a 0x prefix and an
even number of valid hex digits, otherwise it throws (none here); on
success returns the 0x-prefixed lowercase hex digest. -/
def keccak256OfHexString (s : String) : Option String :=
  if strStartsWith s "0x" then
    (hexPairsToBytes? (s.drop 2).toList).map (fun bs => bytesToHex (keccak256Bytes bs))
  else none

/-! ## Analysis data model (backend/types/analysis.ts) -/

inductive RiskLevel where
  | low | medium | high | critical
deriving DecidableEq, Repr

/-- severityWeight table of bytecodeAnalyzer.ts. -/
def severityWeight : RiskLevel → Nat
  | .low => 1
  | .medium => 3
  | .high => 6
  | .critical => 10

/-- AnalysisFinding.  The free-form metadata object is embedded as a list of
key/value pairs with values rendered to strings (the source stores numbers
and strings there; no code path reads them back). -/
structure AnalysisFinding where
  id : String
  title : String
  description : String
  severity : RiskLevel
  metadata : List (String × String)
deriving DecidableEq, Repr

structure OpcodeSummary where
  totalOpcodes : Nat
  dangerousOpcodeHits : List (String × Nat)
  uniqueOpcodes : Nat
deriving DecidableEq, Repr

structure AnalysisReport where
  address : String
  riskScore : Nat
  riskLevel : RiskLevel
  findings : List AnalysisFinding
  opcodeSummary : OpcodeSummary
  bytecodeHash : String
  balanceWei : Option String
  blockNumber : Option Nat
deriving DecidableEq, Repr

/-! ## Opcode catalog (opcodeMetadata of bytecodeAnalyzer.ts) -/

structure OpcodeEntry where
  name : String
  severity : RiskLevel
  title : String
  description : String
deriving DecidableEq, Repr

def createEntry : OpcodeEntry :=
  ⟨"CREATE", .medium, "Contract deploys other contracts",
   "CREATE opcode detected. Factories and proxies often use CREATE. Review deployment logic for controlled usage."⟩

def callEntry : OpcodeEntry :=
  ⟨"CALL", .medium, "External call detected",
   "CALL opcode can forward arbitrary gas and value. Ensure called addresses are trusted or validated."⟩

def callcodeEntry : OpcodeEntry :=
  ⟨"CALLCODE", .critical, "Legacy CALLCODE usage",
   "CALLCODE shares context with callee similar to DELEGATECALL and is widely considered unsafe."⟩

def delegatecallEntry : OpcodeEntry :=
  ⟨"DELEGATECALL", .high, "Delegatecall usage",
   "DELEGATECALL executes external code in the caller context. Ensure delegate target and storage layout are controlled."⟩

def create2Entry : OpcodeEntry :=
  ⟨"CREATE2", .medium, "Deterministic deployments",
   "CREATE2 opcode detected. Verify salts and initialization logic to avoid collision or misuse."⟩

def staticcallEntry : OpcodeEntry :=
  ⟨"STATICCALL", .low, "Static call usage",
   "STATICCALL is read-only but may indicate reliance on external contracts. Confirm upstream contract assumptions."⟩

def selfdestructEntry : OpcodeEntry :=
  ⟨"SELFDESTRUCT", .high, "Self-destruct capability",
   "SELFDESTRUCT enables the contract to wipe code and force-send funds. Ensure destruction is properly restricted."⟩

def extcodesizeEntry : OpcodeEntry :=
  ⟨"EXTCODESIZE", .low, "Contract existence checks",
   "EXTCODESIZE is often used to detect contracts. Ensure protections against flash-loan or phishing bypasses."⟩

def originEntry : OpcodeEntry :=
  ⟨"ORIGIN", .high, "tx.origin authentication",
   "ORIGIN opcode suggests reliance on tx.origin. This pattern is dangerous for authentication flows."⟩

def sstoreEntry : OpcodeEntry :=
  ⟨"SSTORE", .low, "Storage mutation",
   "SSTORE indicates mutable state. Combined with admin-like functions this could enable privileged behavior."⟩

/-- The opcodeMetadata object in source order, keyed by lowercase hex byte. -/
def opcodeMetadata : List (String × OpcodeEntry) :=
  [("f0", createEntry), ("f1", callEntry), ("f2", callcodeEntry), ("f4", delegatecallEntry),
   ("f5", create2Entry), ("fa", staticcallEntry), ("ff", selfdestructEntry),
   ("3f", extcodesizeEntry), ("32", originEntry), ("55", sstoreEntry)]

/-- Object.entries(opcodeMetadata) iteration order: JavaScript enumerates
array-index-like keys first in ascending numeric order ("32", "55"), then
the remaining string keys in insertion order. -/
def opcodeMetadataEntries : List (String × OpcodeEntry) :=
  [("32", originEntry), ("55", sstoreEntry), ("f0", createEntry), ("f1", callEntry),
   ("f2", callcodeEntry), ("f4", delegatecallEntry), ("f5", create2Entry),
   ("fa", staticcallEntry), ("ff", selfdestructEntry), ("3f", extcodesizeEntry)]

/-- Property access opcodeMetadata[key]. -/
def lookupMeta (key : String) : Option OpcodeEntry :=
  (opcodeMetadata.find? (fun p => p.1 == key)).map (·.2)

/-! ## Small analyzer helpers -/

/-- normalizeBytecode of bytecodeAnalyzer.ts: empty input becomes "0x",
otherwise lowercase and 0x-prefix the string. -/
def normalizeBytecode (bytecode : String) : String :=
  if bytecode = "" then "0x"
  else if strStartsWith bytecode "0x" then toLowerStr bytecode
  else "0x" ++ toLowerStr bytecode

/-- isPushOpcode: PUSH1..PUSH32 occupy 0x60..0x7f. -/
def isPushOpcode (opcode : Nat) : Bool := decide (0x60 ≤ opcode ∧ opcode ≤ 0x7f)

/-- evaluateRiskLevel of bytecodeAnalyzer.ts. -/
def evaluateRiskLevel (score : Nat) : RiskLevel :=
  if score ≥ 18 then .critical
  else if score ≥ 12 then .high
  else if score ≥ 6 then .medium
  else .low

/-- appendFinding of bytecodeAnalyzer.ts: emit one finding for a catalog
entry with its occurrence count rendered into the description. -/
def appendFinding (findings : List AnalysisFinding) (metadataKey : String)
    (occurrences : Nat) : List AnalysisFinding :=
  match lookupMeta metadataKey with
  | none => findings
  | some entry =>
    findings ++
      [{ id := toLowerStr entry.name ++ "-usage",
         title := entry.title,
         description := entry.description ++ " Observed " ++ toString occurrences ++ " time(s).",
         severity := entry.severity,
         metadata := [("occurrences", toString occurrences)] }]

def adminKeywords : List String :=
  ["owner", "admin", "setadmin", "setowner", "pause", "unpause", "upgrade", "transferownership"]

def financialKeywords : List String :=
  ["withdraw", "deposit", "transfer", "mint", "burn", "sweep", "claim"]

/-! ## ABI input model -/

/-- One fragment of a parsed ethers Interface; only the type tag and the
function name are read by the analyzer. -/
structure AbiFragment where
  ftype : String
  name : Option String
deriving DecidableEq, Repr

/-- Modelled from the spec: the caller-supplied ethers InterfaceAbi together
with the outcome of new Interface(abi), which is computed by the external
ethers library (not part of this repository).  A value carries either the
parse failure message the library throws or the parsed fragment list. -/
inductive AbiInput where
  | parseError (message : String)
  | parsed (fragments : List AbiFragment)
deriving DecidableEq, Repr

/-- analyzeAbi of bytecodeAnalyzer.ts. -/
def analyzeAbi (abi : Option AbiInput) : List AnalysisFinding :=
  match abi with
  | none => []
  | some (.parseError msg) =>
    [{ id := "abi-parse-error",
       title := "ABI parsing failed",
       description := "Provided ABI could not be parsed: " ++ msg,
       severity := .medium,
       metadata := [("rawError", msg)] }]
  | some (.parsed fragments) =>
    let functionFragments := fragments.filter (fun f => f.ftype == "function")
    let counts := functionFragments.foldl
      (fun (acc : Nat × Nat) fragment =>
        match fragment.name with
        | none => acc
        | some nm =>
          let fn := toLowerStr nm
          if fn = "" then acc
          else
            let acc1 := if adminKeywords.any (fun keyword => strIncludes fn keyword)
                        then (acc.1 + 1, acc.2) else acc
            if financialKeywords.any (fun keyword => strIncludes fn keyword)
            then (acc1.1, acc1.2 + 1) else acc1)
      (0, 0)
    let adminFunctionCount := counts.1
    let financialFunctionCount := counts.2
    let findings : List AnalysisFinding :=
      if adminFunctionCount > 0 then
        [{ id := "admin-function-detected",
           title := "Administrative functions exposed",
           description := "Detected " ++ toString adminFunctionCount ++
             " function(s) that match common administrative patterns.",
           severity := if adminFunctionCount > 2 then .high else .medium,
           metadata := [("count", toString adminFunctionCount)] }]
      else []
    if financialFunctionCount > 0 then
      findings ++
        [{ id := "financial-function-detected",
           title := "Financial control functions exposed",
           description := "Detected " ++ toString financialFunctionCount ++
             " function(s) with financial authority patterns.",
           severity := .medium,
           metadata := [("count", toString financialFunctionCount)] }]
    else findings

/-! ## Bytecode scanner (the walk loop of analyzeBytecode) -/

/-- Mutable scan accumulators of the walk loop.  The JS Set keeps insertion
order and is only read through its size; the Record keeps insertion order of
first occurrence of each name. -/
structure ScanState where
  uniqueOpcodes : List String
  dangerousOpcodeHits : List (String × Nat)
  totalOpcodes : Nat
deriving DecidableEq, Repr

/-- Set.prototype.add. -/
def insertUnique (l : List String) (s : String) : List String :=
  if l.contains s then l else l ++ [s]

/-- Record read hits[name]. -/
def lookupHits (l : List (String × Nat)) (k : String) : Option Nat :=
  (l.find? (fun p => p.1 == k)).map (·.2)

/-- Record write hits[name] = (hits[name] ?? 0) + 1. -/
def bumpHit (l : List (String × Nat)) (k : String) : List (String × Nat) :=
  if (l.find? (fun p => p.1 == k)).isSome then
    l.map (fun p => if p.1 == k then (p.1, p.2 + 1) else p)
  else l ++ [(k, 1)]

/-- How far the loop index additionally advances for a push opcode:
pushLength * 2 hex characters, where pushLength = opcodeValue - 0x5f. -/
def pushSkipLen : Option Nat → Nat
  | some v => if isPushOpcode v then (v - 0x5f) * 2 else 0
  | none => 0

/-- The for-loop of analyzeBytecode over the hex characters after the 0x
prefix.  Each iteration slices two characters (one at the very end of an
odd-length stream), counts the instruction, records the slice in the
distinct-opcode set, skips push operands, and tallies catalog hits.  A
single trailing character can match no two-character catalog key and its
value (at most 0xf) is never a push opcode, so that iteration is final
either way. -/
def scanLoop : Nat → List Char → ScanState → ScanState
  | _, [], st => st
  | 0, _ :: _, st => st
  | _ + 1, [c], st =>
    let opcodeHex := String.mk [c]
    let stA : ScanState :=
      { st with totalOpcodes := st.totalOpcodes + 1,
                uniqueOpcodes := insertUnique st.uniqueOpcodes opcodeHex }
    match lookupMeta opcodeHex with
    | some entry => { stA with dangerousOpcodeHits := bumpHit stA.dangerousOpcodeHits entry.name }
    | none => stA
  | fuel + 1, c1 :: c2 :: t, st =>
    let opcodeHex := String.mk [c1, c2]
    let stA : ScanState :=
      { st with totalOpcodes := st.totalOpcodes + 1,
                uniqueOpcodes := insertUnique st.uniqueOpcodes opcodeHex }
    let stB : ScanState :=
      match lookupMeta opcodeHex with
      | some entry => { stA with dangerousOpcodeHits := bumpHit stA.dangerousOpcodeHits entry.name }
      | none => stA
    scanLoop fuel (t.drop (pushSkipLen (parseIntHex [c1, c2]))) stB

/-- The whole walk starting from empty accumulators.  The fuel argument
makes the recursion structural; since every iteration advances the index by
at least two characters, hex.length bounds the iteration count and the
zero-fuel fallback is unreachable from here. -/
def scanHex (hex : List Char) : ScanState :=
  scanLoop hex.length hex { uniqueOpcodes := [], dangerousOpcodeHits := [], totalOpcodes := 0 }

/-- The findings loop over Object.entries(opcodeMetadata): one finding per
catalog entry with a truthy hit count. -/
def catalogFindings (hits : List (String × Nat)) : List AnalysisFinding :=
  opcodeMetadataEntries.foldl
    (fun acc p =>
      match lookupHits hits p.2.name with
      | some occurrences => if occurrences ≠ 0 then appendFinding acc p.1 occurrences else acc
      | none => acc)
    []

/-! ## Risk aggregator (tail of analyzeBytecode) -/

def emptyBytecodeFinding : AnalysisFinding :=
  { id := "empty-bytecode",
    title := "Externally Owned Account",
    description := "No bytecode found at this address. It is likely an externally owned account (EOA).",
    severity := .low,
    metadata := [] }

/-- The report returned by the empty-bytecode short circuit. -/
def emptyReport (address : String) (balanceWei : Option String)
    (blockNumber : Option Nat) : AnalysisReport :=
  { address := address,
    riskScore := 0,
    riskLevel := .low,
    findings := [emptyBytecodeFinding],
    opcodeSummary := { totalOpcodes := 0, dangerousOpcodeHits := [], uniqueOpcodes := 0 },
    bytecodeHash := "0x0",
    balanceWei := balanceWei,
    blockNumber := blockNumber }

def highBalanceFinding (balanceWei : Option String) : AnalysisFinding :=
  { id := "high-balance-with-risks",
    title := "Balance guarded by risky patterns",
    description := "This contract holds funds and exposes high severity opcodes. Confirm access controls and upgrade paths.",
    severity := .high,
    metadata := [("balanceWei", balanceWei.getD "")] }

def suspiciousPaddingFinding : AnalysisFinding :=
  { id := "suspicious-padding",
    title := "Large segments of bytecode data",
    description := "Significant portions of the bytecode are data segments rather than logic opcodes. Review for embedded payloads or obfuscation.",
    severity := .medium,
    metadata := [] }

structure AnalyzeOptions where
  address : String
  bytecode : String
  balanceWei : Option String
  blockNumber : Option Nat
  abi : Option AbiInput
deriving Repr

/-- JS truthiness of an optional string (undefined and "" are falsy). -/
def strTruthy : Option String → Bool
  | some s => s != ""
  | none => false

/-- analyzeBytecode of bytecodeAnalyzer.ts.  The function is total in the
source except for the ethers keccak256 call on the normalized bytecode,
which throws on a malformed hex string; that exception is the error case.
The padding rule compares totalOpcodes / (hex.length / 2 || 1) < 0.25 in
exact JS float arithmetic, which for non-empty hex is the integer
inequality 8 * totalOpcodes < hex.length used here. -/
def analyzeBytecode (opts : AnalyzeOptions) : Except String AnalysisReport :=
  let normalizedBytecode := normalizeBytecode opts.bytecode
  let hex := (normalizedBytecode.drop 2).toList
  if hex.length = 0 then
    .ok (emptyReport opts.address opts.balanceWei opts.blockNumber)
  else
    let st := scanHex hex
    let findings0 := catalogFindings st.dangerousOpcodeHits
    let findings1 := findings0 ++ analyzeAbi opts.abi
    let findings2 :=
      if strTruthy opts.balanceWei &&
         findings1.any (fun f => f.severity == RiskLevel.high || f.severity == RiskLevel.critical)
      then findings1 ++ [highBalanceFinding opts.balanceWei]
      else findings1
    let findings3 :=
      if 8 * st.totalOpcodes < hex.length
      then findings2 ++ [suspiciousPaddingFinding]
      else findings2
    let totalRiskScore := findings3.foldl (fun acc f => acc + severityWeight f.severity) 0
    match keccak256OfHexString normalizedBytecode with
    | none => .error "invalid BytesLike value"
    | some h =>
      .ok { address := opts.address,
            riskScore := totalRiskScore,
            riskLevel := evaluateRiskLevel totalRiskScore,
            findings := findings3,
            opcodeSummary := { totalOpcodes := st.totalOpcodes,
                               dangerousOpcodeHits := st.dangerousOpcodeHits,
                               uniqueOpcodes := st.uniqueOpcodes.length },
            bytecodeHash := h,
            balanceWei := opts.balanceWei,
            blockNumber := opts.blockNumber }

/-- Projects the report out of a successful analysis (used to name concrete
reports in closed statements). -/
def getOk (e : Except String AnalysisReport) : AnalysisReport :=
  match e with
  | .ok r => r
  | .error _ => emptyReport "" none none

/-! ## Scan lifecycle model (backend/services/scanService.ts)

The durable store is embedded as a list of scan records; the Kafka producer
as a list of enqueued scan identifiers; contract records are identified by
a numeric key standing for the (normalized address, network) pair that
ensureContract upserts to a stable document id.  MongoDB writes are taken
as reliable (only cache/RPC failure modes are in the claims); Redis and the
chain RPC are external, so their outcomes are oracle inputs. -/

inductive ScanStatus where
  | pending | running | succeeded | failed
deriving DecidableEq, Repr

def ScanStatus.isActive : ScanStatus → Bool
  | .pending => true
  | .running => true
  | _ => false

def ScanStatus.isTerminal : ScanStatus → Bool
  | .succeeded => true
  | .failed => true
  | _ => false

structure Scan where
  id : Nat
  contract : Nat
  status : ScanStatus
  createdAt : Nat
  riskScore : Option Nat
  error : Option String
deriving DecidableEq, Repr

structure SysState where
  scans : List Scan
  queue : List Nat
  nextScanId : Nat
  nextTime : Nat
deriving DecidableEq, Repr

/-- The scans matching the dedup query of createScanRequest:
ScanModel.findOne with contract = c and status in [pending, running]. -/
def activeScansFor (scans : List Scan) (c : Nat) : List Scan :=
  scans.filter (fun s => s.contract == c && s.status.isActive)

/-- Fold step selecting the scan with the largest createdAt. -/
def moreRecentScan (acc : Option Scan) (s : Scan) : Option Scan :=
  match acc with
  | none => some s
  | some t => if s.createdAt > t.createdAt then some s else acc

/-- findOne result under sort createdAt descending: the most recent of the
matching scans. -/
def latestActiveScan (scans : List Scan) (c : Nat) : Option Scan :=
  (activeScansFor scans c).foldl moreRecentScan none

/-- createScanRequest of scanService.ts after address normalization and
contract upsert: return any pending/running scan unchanged, otherwise
create a pending scan and enqueue its job payload. -/
def createScanRequest (st : SysState) (c : Nat) : Scan × SysState :=
  match latestActiveScan st.scans c with
  | some existing => (existing, st)
  | none =>
    let scan : Scan :=
      { id := st.nextScanId, contract := c, status := .pending,
        createdAt := st.nextTime, riskScore := none, error := none }
    (scan,
     { scans := st.scans ++ [scan],
       queue := st.queue ++ [scan.id],
       nextScanId := st.nextScanId + 1,
       nextTime := st.nextTime + 1 })

/-- updateScanStatus of scanService.ts: findByIdAndUpdate with a $set of the
status plus any result/error fields supplied in updates. -/
def updateScanStatus (st : SysState) (scanId : Nat) (status : ScanStatus)
    (score : Option Nat) (err : Option String) : SysState :=
  { st with
    scans := st.scans.map (fun s =>
      if s.id == scanId then
        { s with status := status,
                 riskScore := match score with | some r => some r | none => s.riskScore,
                 error := match err with | some e => some e | none => s.error }
      else s) }

def findScan (st : SysState) (scanId : Nat) : Option Scan :=
  st.scans.find? (fun s => s.id == scanId)

/-- Outcomes of the external calls one processScanJob execution performs:
the chain RPC context fetch, the Redis bytecode read, the RPC bytecode
fetch, the Redis bytecode write, the Redis report write, and the contract
risk rollup write.  An Except error is the promise rejection the source
would observe at that call. -/
structure WorkerEnv where
  rpcContextOk : Bool
  cachedBytecode : Except String (Option String)
  rpcBytecode : Except String String
  setBytecodeOk : Bool
  cacheReportOk : Bool
  contractRiskOk : Bool
  balanceWei : String
  blockNumber : Nat

/-- The bytecode acquisition step of processScanJob: read the cache; on a
miss (null or empty string are both falsy) fetch from the provider and
write the cache (setCachedBytecode returns immediately on an empty value,
so only a non-empty value can hit a failing write). -/
def fetchBytecode (env : WorkerEnv) : Except String String :=
  match env.cachedBytecode with
  | .error e => .error e
  | .ok cached =>
    let bc0 := match cached with | some s => s | none => ""
    if bc0 == "" then
      match env.rpcBytecode with
      | .error e => .error e
      | .ok bc =>
        if bc == "" then .ok bc
        else if env.setBytecodeOk then .ok bc
        else .error "cache write failed"
    else .ok bc0

/-- processScanJob of scanService.ts.  Returns the final state together with
the sequence of status values written for this scan, in order: the
unconditional transition to running, then inside the try block the
transition to succeeded on analysis success, and — in the catch handler —
a transition to failed on any rejection, including rejections of the
report-cache write or the contract risk update that happen after the
succeeded write. -/
def workerResult (env : WorkerEnv) (address : String)
    (abi : Option AbiInput) : Except String AnalysisReport :=
  if !env.rpcContextOk then .error "rpc context unavailable"
  else
    match fetchBytecode env with
    | .error e => .error e
    | .ok bytecode =>
      analyzeBytecode
        { address := address, bytecode := bytecode,
          balanceWei := some env.balanceWei,
          blockNumber := some env.blockNumber, abi := abi }

def processScanJob (env : WorkerEnv) (st : SysState) (scanId : Nat)
    (address : String) (abi : Option AbiInput) : SysState × List ScanStatus :=
  let st1 := updateScanStatus st scanId .running none none
  match workerResult env address abi with
  | .ok report =>
    let st2 := updateScanStatus st1 scanId .succeeded (some report.riskScore) none
    if env.cacheReportOk then
      if env.contractRiskOk then
        (st2, [.running, .succeeded])
      else
        (updateScanStatus st2 scanId .failed none (some "contract risk update failed"),
         [.running, .succeeded, .failed])
    else
      (updateScanStatus st2 scanId .failed none (some "report cache write failed"),
       [.running, .succeeded, .failed])
  | .error e =>
    (updateScanStatus st1 scanId .failed none (some e), [.running, .failed])

/-- Result shape of getScanById: either the cached wrapper (returned as-is)
or the durable scan record. -/
inductive ScanLookupResult where
  | cachedReport (raw : String)
  | stored (scan : Scan)
deriving DecidableEq, Repr

/-- getScanById of scanService.ts: read the report cache first and return a
hit as-is; only on a clean miss fall through to the durable store.  The
cache read has no exception handler, so a rejection propagates to the
caller. -/
def getScanById (cacheRead : Except String (Option String)) (st : SysState)
    (scanId : Nat) : Except String (Option ScanLookupResult) :=
  match cacheRead with
  | .error e => .error e
  | .ok (some raw) => .ok (some (.cachedReport raw))
  | .ok none => .ok ((findScan st scanId).map .stored)

/-- The deduplication invariant: at most one pending/running scan per
contract. -/
def DedupInvariant (st : SysState) : Prop :=
  ∀ c, (activeScansFor st.scans c).length ≤ 1

/-! ## Scanner lemmas -/

theorem hexDigit_hexChar_eq : ∀ d, d < 16 → hexDigit? (hexCharOfNat d) = some d := by decide

set_option maxRecDepth 4096 in
/-- parseInt reads back the two lowercase hex characters of any byte. -/
theorem parseIntHex_byte :
    ∀ v, v < 256 → parseIntHex [hexCharOfNat (v / 16), hexCharOfNat (v % 16)] = some v := by
  decide

set_option maxRecDepth 4096 in
/-- No push opcode (0x60..0x7f) is a key of the opcode catalog. -/
theorem lookupMeta_push_none :
    ∀ v, v < 128 → 96 ≤ v →
      lookupMeta (String.mk [hexCharOfNat (v / 16), hexCharOfNat (v % 16)]) = none := by
  decide

/-! ## Claim C1: push operands are skipped -/

/-- A push-32 opcode byte followed by 32 bytes of 0xff (the SELFDESTRUCT
byte value). -/
def pushFfBytecode : String := "0x7f" ++ String.mk (List.replicate 64 'f')

/-- C1: the scanner skips the operand bytes of every push opcode
(0x60..0x7f): one loop iteration on a push opcode followed by its
pushLength operand bytes counts one instruction, records only the push
opcode itself in the distinct-opcode set, matches nothing from the operand
bytes against the catalog, and resumes directly after the operand bytes.
In particular a push-32 followed by 32 bytes 0xff produces a report with no
SELFDESTRUCT finding, no SELFDESTRUCT hit, one counted instruction and one
distinct opcode. -/
theorem pushOperands_skipped :
    (∀ fuel v op rest st, isPushOpcode v = true → op.length = (v - 0x5f) * 2 →
      scanLoop (fuel + 1) (hexCharOfNat (v / 16) :: hexCharOfNat (v % 16) :: (op ++ rest)) st =
        scanLoop fuel rest
          { st with totalOpcodes := st.totalOpcodes + 1,
                    uniqueOpcodes :=
                      insertUnique st.uniqueOpcodes
                        (String.mk [hexCharOfNat (v / 16), hexCharOfNat (v % 16)]) }) ∧
    (analyzeBytecode ⟨"0xabc", pushFfBytecode, none, none, none⟩).map
      (fun r => (r.findings.filter (fun f => f.id == "selfdestruct-usage"),
                 lookupHits r.opcodeSummary.dangerousOpcodeHits "SELFDESTRUCT",
                 r.opcodeSummary.totalOpcodes, r.opcodeSummary.uniqueOpcodes)) =
      .ok ([], none, 1, 1) := by
  constructor
  · intro fuel v op rest st hv hop
    have hb : 96 ≤ v ∧ v ≤ 127 := by simpa [isPushOpcode] using hv
    have hv256 : v < 256 := by omega
    rw [scanLoop]
    rw [parseIntHex_byte v hv256, lookupMeta_push_none v (by omega) (by omega)]
    simp only [pushSkipLen, hv, if_true]
    rw [← hop, List.drop_left]
  · rfl

/-- Witness for C1 at the concrete push-32 instance. -/
theorem pushOperands_skipped_witness :
    isPushOpcode 127 = true ∧ (List.replicate 64 'f').length = (127 - 0x5f) * 2 ∧
    scanLoop 2 (hexCharOfNat (127 / 16) :: hexCharOfNat (127 % 16) ::
        (List.replicate 64 'f' ++ [])) ⟨[], [], 0⟩ =
      scanLoop 1 []
        ⟨insertUnique [] (String.mk [hexCharOfNat (127 / 16), hexCharOfNat (127 % 16)]), [], 0 + 1⟩ :=
  ⟨by decide, by decide,
   pushOperands_skipped.1 1 127 (List.replicate 64 'f') [] ⟨[], [], 0⟩ (by decide) (by decide)⟩

/-! ## Claim C5: empty bytecode short circuit -/

/-- C5: for bytecode "0x" or "", the analysis succeeds and returns exactly
one low-severity empty-bytecode finding, risk score 0, risk level low and a
zero-valued opcode summary. -/
theorem empty_bytecode_report :
    ∀ address balanceWei blockNumber,
      analyzeBytecode ⟨address, "0x", balanceWei, blockNumber, none⟩ =
        .ok (emptyReport address balanceWei blockNumber) ∧
      analyzeBytecode ⟨address, "", balanceWei, blockNumber, none⟩ =
        .ok (emptyReport address balanceWei blockNumber) ∧
      (emptyReport address balanceWei blockNumber).findings = [emptyBytecodeFinding] ∧
      emptyBytecodeFinding.severity = .low ∧
      (emptyReport address balanceWei blockNumber).riskScore = 0 ∧
      (emptyReport address balanceWei blockNumber).riskLevel = .low ∧
      (emptyReport address balanceWei blockNumber).opcodeSummary =
        { totalOpcodes := 0, dangerousOpcodeHits := [], uniqueOpcodes := 0 } := by
  intro address balanceWei blockNumber
  exact ⟨rfl, rfl, rfl, rfl, rfl, rfl, rfl⟩

/-! ## Claim C9: empty bytecode ignores the ABI and contextual rules -/

/-- C9: when the normalized bytecode is empty the function returns before
the ABI scanner and the contextual rules run, so the report is the single
empty-bytecode report for every supplied ABI (including unparseable ones)
and every supplied balance. -/
theorem empty_bytecode_ignores_abi :
    ∀ address balanceWei blockNumber abi,
      analyzeBytecode ⟨address, "0x", balanceWei, blockNumber, abi⟩ =
        .ok (emptyReport address balanceWei blockNumber) ∧
      analyzeBytecode ⟨address, "", balanceWei, blockNumber, abi⟩ =
        .ok (emptyReport address balanceWei blockNumber) := by
  intro address balanceWei blockNumber abi
  exact ⟨rfl, rfl⟩

/-! ## Claim C6: optional ABI and parse failure handling -/

/-- C6: with no ABI the ABI scanner returns an empty finding list; with an
ABI that fails to parse it returns exactly one medium-severity finding with
identifier abi-parse-error carrying the parse failure message, and no
administrative or financial findings. -/
theorem abi_optional_and_parse_error :
    analyzeAbi none = [] ∧
    ∀ msg, analyzeAbi (some (.parseError msg)) =
      [{ id := "abi-parse-error", title := "ABI parsing failed",
         description := "Provided ABI could not be parsed: " ++ msg,
         severity := .medium, metadata := [("rawError", msg)] }] :=
  ⟨rfl, fun _ => rfl⟩

/-! ## Claim C10: administrative and financial keyword sets overlap -/

/-- C10: the keyword classifications are not mutually exclusive: a single
function named transferOwnership is counted in both the administrative and
the financial tally, and together with two more administrative names it
drives the administrative count above two, escalating that finding to
high severity. -/
theorem keyword_overlap_double_count :
    analyzeAbi (some (.parsed [⟨"function", some "transferOwnership"⟩])) =
      [{ id := "admin-function-detected", title := "Administrative functions exposed",
         description := "Detected 1 function(s) that match common administrative patterns.",
         severity := .medium, metadata := [("count", "1")] },
       { id := "financial-function-detected", title := "Financial control functions exposed",
         description := "Detected 1 function(s) with financial authority patterns.",
         severity := .medium, metadata := [("count", "1")] }] ∧
    analyzeAbi (some (.parsed [⟨"function", some "transferOwnership"⟩,
                               ⟨"function", some "setAdminRole"⟩,
                               ⟨"function", some "pauseAll"⟩])) =
      [{ id := "admin-function-detected", title := "Administrative functions exposed",
         description := "Detected 3 function(s) that match common administrative patterns.",
         severity := .high, metadata := [("count", "3")] },
       { id := "financial-function-detected", title := "Financial control functions exposed",
         description := "Detected 1 function(s) with financial authority patterns.",
         severity := .medium, metadata := [("count", "1")] }] := by
  exact ⟨by decide, by decide⟩

/-! ## Claim C2: risk score as severity weight sum (amended) -/

/-- The score/level relation the aggregator is supposed to maintain, stated
of an analysis outcome. -/
def RiskScoreIsWeightSum (e : Except String AnalysisReport) : Prop :=
  ∀ r, e = .ok r →
    r.riskScore = r.findings.foldl (fun acc f => acc + severityWeight f.severity) 0 ∧
    r.riskLevel = evaluateRiskLevel r.riskScore

/-- Counterexample to C2 as stated: the empty-bytecode report carries one
low-severity finding (weight sum 1) but a hard-coded risk score of 0, so
the score is not the sum of the severity weights of the findings for every
report. -/
theorem riskScore_sum_empty_counterexample :
    (analyzeBytecode ⟨"0xabc", "", none, none, none⟩).map
      (fun r => (r.riskScore, r.findings.foldl (fun acc f => acc + severityWeight f.severity) 0)) =
      .ok (0, 1) := by
  rfl

/-- C2 (amended): for every report produced from non-empty normalized
bytecode, the risk score is the sum of the severity weights (low=1,
medium=3, high=6, critical=10) of the findings, each finding counted once,
and the risk level is derived by the 18/12/6 thresholds; the empty-bytecode
report instead hard-codes score 0 and level low.  The DELEGATECALL +
SELFDESTRUCT example scores 12 (high) and gains a further high-severity
balance-at-risk finding reaching 18 (critical). -/
theorem riskScore_weighted_sum :
    (∀ opts, ((normalizeBytecode opts.bytecode).drop 2).toList.length ≠ 0 →
      RiskScoreIsWeightSum (analyzeBytecode opts)) ∧
    (analyzeBytecode ⟨"0xabc", "0xf4ff", none, none, none⟩).map
      (fun r => (r.riskScore, r.riskLevel)) = .ok (12, .high) ∧
    (analyzeBytecode ⟨"0xabc", "0xf4ff", some "1000", none, none⟩).map
      (fun r => (r.riskScore, r.riskLevel)) = .ok (18, .critical) := by
  refine ⟨?_, by rfl, by rfl⟩
  intro opts hne r hok
  simp only [analyzeBytecode] at hok
  rw [if_neg hne] at hok
  cases hkec : keccak256OfHexString (normalizeBytecode opts.bytecode) with
  | none => rw [hkec] at hok; exact absurd hok (by simp)
  | some hsh =>
    rw [hkec] at hok
    injection hok with h2
    subst h2
    exact ⟨rfl, rfl⟩

/-- Witness for C2 (amended) at the DELEGATECALL + SELFDESTRUCT bytecode. -/
theorem riskScore_weighted_sum_witness :
    RiskScoreIsWeightSum (analyzeBytecode ⟨"0xabc", "0xf4ff", none, none, none⟩) :=
  riskScore_weighted_sum.1 ⟨"0xabc", "0xf4ff", none, none, none⟩ (by decide)

/-! ## Claim C7: the bytecode content hash (amended) -/

/-- Case analysis of the recorded bytecode hash: empty normalized bytecode
records the sentinel "0x0"; otherwise the hash is the keccak-256 of the
normalized bytecode. -/
theorem analyzeBytecode_hash_cases :
    ∀ opts r, analyzeBytecode opts = .ok r →
      (((normalizeBytecode opts.bytecode).drop 2).toList.length = 0 ∧ r.bytecodeHash = "0x0") ∨
      (((normalizeBytecode opts.bytecode).drop 2).toList.length ≠ 0 ∧
        keccak256OfHexString (normalizeBytecode opts.bytecode) = some r.bytecodeHash) := by
  intro opts r hok
  by_cases h : ((normalizeBytecode opts.bytecode).drop 2).toList.length = 0
  · left
    refine ⟨h, ?_⟩
    simp only [analyzeBytecode] at hok
    rw [if_pos h] at hok
    injection hok with h2
    subst h2
    rfl
  · right
    refine ⟨h, ?_⟩
    simp only [analyzeBytecode] at hok
    rw [if_neg h] at hok
    cases hkec : keccak256OfHexString (normalizeBytecode opts.bytecode) with
    | none => rw [hkec] at hok; exact absurd hok (by simp)
    | some hsh =>
      rw [hkec] at hok
      injection hok with h2
      subst h2
      rfl

set_option maxRecDepth 10000 in
/-- Counterexample to C7 as stated: the empty-bytecode report records the
sentinel hash "0x0", which is not the keccak-256 of the normalized
bytecode "0x" (that digest is the well-known hash of the empty byte
string), so the hash equation does not hold for the empty-bytecode case. -/
theorem bytecodeHash_empty_counterexample :
    (analyzeBytecode ⟨"0xabc", "", none, none, none⟩).map (fun r => r.bytecodeHash) =
      .ok "0x0" ∧
    keccak256OfHexString (normalizeBytecode "") =
      some "0xc5d2460186f7233c927e7db2dcc703c0e500b653ca82273b7bfad8045d85a470" ∧
    ("0x0" : String) ≠ "0xc5d2460186f7233c927e7db2dcc703c0e500b653ca82273b7bfad8045d85a470" :=
  ⟨rfl, by rfl, by decide⟩

/-- C7 (amended): for non-empty normalized bytecode the recorded content
hash equals the keccak-256 of the normalized (0x-prefixed, lowercased)
bytecode, while the empty-bytecode report records the sentinel "0x0".
Hence two analyses whose inputs normalize identically (any casing or 0x
prefix form) record identical hashes, and two analyses of non-empty
bytecodes whose keccak-256 digests differ record different hashes. -/
theorem bytecodeHash_keccak :
    (∀ opts r, analyzeBytecode opts = .ok r →
        ((normalizeBytecode opts.bytecode).drop 2).toList.length ≠ 0 →
        keccak256OfHexString (normalizeBytecode opts.bytecode) = some r.bytecodeHash) ∧
    (∀ opts r, analyzeBytecode opts = .ok r →
        ((normalizeBytecode opts.bytecode).drop 2).toList.length = 0 →
        r.bytecodeHash = "0x0") ∧
    (∀ o1 o2 r1 r2, analyzeBytecode o1 = .ok r1 → analyzeBytecode o2 = .ok r2 →
        normalizeBytecode o1.bytecode = normalizeBytecode o2.bytecode →
        r1.bytecodeHash = r2.bytecodeHash) ∧
    (∀ o1 o2 r1 r2, analyzeBytecode o1 = .ok r1 → analyzeBytecode o2 = .ok r2 →
        keccak256OfHexString (normalizeBytecode o1.bytecode) ≠
          keccak256OfHexString (normalizeBytecode o2.bytecode) →
        ((normalizeBytecode o1.bytecode).drop 2).toList.length ≠ 0 →
        ((normalizeBytecode o2.bytecode).drop 2).toList.length ≠ 0 →
        r1.bytecodeHash ≠ r2.bytecodeHash) := by
  refine ⟨?_, ?_, ?_, ?_⟩
  · intro opts r hok hne
    rcases analyzeBytecode_hash_cases opts r hok with ⟨h0, _⟩ | ⟨_, hk⟩
    · exact absurd h0 hne
    · exact hk
  · intro opts r hok h0
    rcases analyzeBytecode_hash_cases opts r hok with ⟨_, hx⟩ | ⟨hne, _⟩
    · exact hx
    · exact absurd h0 hne
  · intro o1 o2 r1 r2 h1 h2 hnorm
    rcases analyzeBytecode_hash_cases o1 r1 h1 with ⟨e1, hx1⟩ | ⟨ne1, hk1⟩ <;>
      rcases analyzeBytecode_hash_cases o2 r2 h2 with ⟨e2, hx2⟩ | ⟨ne2, hk2⟩
    · rw [hx1, hx2]
    · rw [hnorm] at e1; exact absurd e1 ne2
    · rw [hnorm] at ne1; exact absurd e2 ne1
    · rw [hnorm] at hk1
      rw [hk2] at hk1
      injection hk1 with h3
      rw [h3]
  · intro o1 o2 r1 r2 h1 h2 hkdiff hne1 hne2 heq
    rcases analyzeBytecode_hash_cases o1 r1 h1 with ⟨e1, _⟩ | ⟨_, hk1⟩
    · exact absurd e1 hne1
    · rcases analyzeBytecode_hash_cases o2 r2 h2 with ⟨e2, _⟩ | ⟨_, hk2⟩
      · exact absurd e2 hne2
      · exact hkdiff (by rw [hk1, hk2, heq])

set_option maxRecDepth 10000 in
/-- Witness for C7 (amended): the same bytecode supplied as "0xAB" and as
"ab" normalizes identically, so the recorded hashes coincide. -/
theorem bytecodeHash_keccak_witness :
    (getOk (analyzeBytecode ⟨"0xa", "0xAB", none, none, none⟩)).bytecodeHash =
      (getOk (analyzeBytecode ⟨"0xa", "ab", none, none, none⟩)).bytecodeHash :=
  bytecodeHash_keccak.2.2.1 ⟨"0xa", "0xAB", none, none, none⟩ ⟨"0xa", "ab", none, none, none⟩
    (getOk (analyzeBytecode ⟨"0xa", "0xAB", none, none, none⟩))
    (getOk (analyzeBytecode ⟨"0xa", "ab", none, none, none⟩)) (by rfl) (by rfl) (by rfl)

/-! ## Claim C3: terminal scan status is overwritten on late cache failure -/

def pendingScan : Scan :=
  { id := 0, contract := 7, status := .pending, createdAt := 0, riskScore := none, error := none }

def onePendingState : SysState :=
  { scans := [pendingScan], queue := [0], nextScanId := 1, nextTime := 1 }

/-- A worker run in which the chain RPC and the durable store behave, the
analysis succeeds, but the report-cache write rejects after the succeeded
transition. -/
def envCacheWriteFails : WorkerEnv :=
  { rpcContextOk := true, cachedBytecode := .ok none, rpcBytecode := .ok "0x6001600255",
    setBytecodeOk := true, cacheReportOk := false, contractRiskOk := true,
    balanceWei := "1000", blockNumber := 42 }

/-- C3 is violated by the code: when the report-cache write fails after the
success transition, processScanJob performs a third status mutation,
running → succeeded → failed, moving the scan backwards out of its terminal
succeeded state (and leaving the attached results on the failed scan). -/
theorem scan_status_third_mutation :
    (processScanJob envCacheWriteFails onePendingState 0 "0xaddr" none).2 =
      [.running, .succeeded, .failed] ∧
    (findScan (processScanJob envCacheWriteFails onePendingState 0 "0xaddr" none).1 0).map
        (fun s => (s.status, s.riskScore)) = some (.failed, some 1) := by
  exact ⟨rfl, rfl⟩

/-! ## Claim C8: cache unavailability is not degraded to the durable path -/

def doneScan : Scan :=
  { id := 5, contract := 1, status := .succeeded, createdAt := 0, riskScore := some 12, error := none }

def storeWithDoneScan : SysState :=
  { scans := [doneScan], queue := [], nextScanId := 6, nextTime := 1 }

/-- A worker run in which the Redis bytecode read rejects while the chain
RPC is healthy and would have served the bytecode. -/
def envCacheReadFails : WorkerEnv :=
  { rpcContextOk := true, cachedBytecode := .error "redis unavailable", rpcBytecode := .ok "0x00",
    setBytecodeOk := true, cacheReportOk := true, contractRiskOk := true,
    balanceWei := "0", blockNumber := 1 }

/-- C8 is violated by the code: a rejected cache read in getScanById
propagates as an error even though the scan is present in the durable
store, and a rejected cache read in processScanJob fails the scan even
though the chain RPC is healthy. -/
theorem cache_failure_propagates :
    getScanById (.error "redis unavailable") storeWithDoneScan 5 = .error "redis unavailable" ∧
    findScan storeWithDoneScan 5 = some doneScan ∧
    envCacheReadFails.rpcBytecode = .ok "0x00" ∧
    (processScanJob envCacheReadFails onePendingState 0 "0xaddr" none).2 =
      [.running, .failed] ∧
    (findScan (processScanJob envCacheReadFails onePendingState 0 "0xaddr" none).1 0).map
        (fun s => (s.status, s.error)) = some (.failed, some "redis unavailable") := by
  exact ⟨rfl, rfl, rfl, rfl, rfl⟩

/-! ## Lifecycle lemmas -/

theorem len_le_one_mem_eq_singleton {α : Type _} (l : List α) (a : α)
    (hlen : l.length ≤ 1) (hmem : a ∈ l) : l = [a] := by
  cases l with
  | nil => exact absurd hmem (List.not_mem_nil a)
  | cons x l' =>
    cases l' with
    | nil => rw [show a = x from List.mem_singleton.mp hmem]
    | cons y t => simp at hlen

theorem foldl_moreRecentScan_some (l : List Scan) (t : Scan) :
    ∃ u, l.foldl moreRecentScan (some t) = some u := by
  induction l generalizing t with
  | nil => exact ⟨t, rfl⟩
  | cons a l ih =>
    simp only [List.foldl_cons]
    by_cases h : a.createdAt > t.createdAt <;> simp only [moreRecentScan, h, if_true, if_false] <;>
      apply ih

theorem latestActiveScan_none (scans : List Scan) (c : Nat)
    (h : latestActiveScan scans c = none) : activeScansFor scans c = [] := by
  cases hfil : activeScansFor scans c with
  | nil => rfl
  | cons a t =>
    unfold latestActiveScan at h
    rw [hfil] at h
    simp only [List.foldl_cons, moreRecentScan] at h
    rcases foldl_moreRecentScan_some t a with ⟨u, hu⟩
    rw [hu] at h
    exact Option.noConfusion h

theorem latestActiveScan_of_singleton (scans : List Scan) (c : Nat) (s : Scan)
    (h : activeScansFor scans c = [s]) : latestActiveScan scans c = some s := by
  unfold latestActiveScan
  rw [h]
  rfl

theorem filter_map_length_le {α : Type _} (f : α → α) (p : α → Bool) :
    ∀ l : List α, (∀ s ∈ l, p (f s) = true → p s = true) →
      ((l.map f).filter p).length ≤ (l.filter p).length := by
  intro l
  induction l with
  | nil => intro _; exact Nat.le_refl 0
  | cons a t ih =>
    intro h
    have hle := ih (fun s hs => h s (List.mem_cons_of_mem a hs))
    simp only [List.map_cons, List.filter_cons]
    cases hfa : p (f a) with
    | true =>
      have hpa : p a = true := h a (List.mem_cons_self a t) hfa
      rw [if_pos rfl, if_pos hpa]
      simp only [List.length_cons]
      exact Nat.succ_le_succ hle
    | false =>
      rw [if_neg (by simp)]
      cases hpa : p a with
      | true =>
        rw [if_pos rfl]
        simp only [List.length_cons]
        exact Nat.le_trans hle (Nat.le_succ _)
      | false =>
        rw [if_neg (by simp)]
        exact hle

theorem updateScanStatus_active_le (st : SysState) (scanId : Nat) (status : ScanStatus)
    (score : Option Nat) (err : Option String) (c : Nat)
    (h : ∀ s ∈ st.scans, s.id = scanId → status.isActive = true → s.status.isActive = true) :
    (activeScansFor (updateScanStatus st scanId status score err).scans c).length ≤
      (activeScansFor st.scans c).length := by
  simp only [updateScanStatus, activeScansFor]
  apply filter_map_length_le
  intro s hs hpf
  by_cases hid : (s.id == scanId) = true
  · have hideq : s.id = scanId := by simpa using hid
    rw [if_pos hid] at hpf
    simp only [Bool.and_eq_true] at hpf ⊢
    refine ⟨hpf.1, ?_⟩
    exact h s hs hideq hpf.2
  · rw [if_neg hid] at hpf
    exact hpf

theorem createScanRequest_returns_active (st : SysState) (c : Nat) (s : Scan)
    (hInv : DedupInvariant st) (hmem : s ∈ st.scans) (hc : s.contract = c)
    (hact : s.status.isActive = true) :
    createScanRequest st c = (s, st) := by
  have hp : (fun x : Scan => x.contract == c && x.status.isActive) s = true := by
    simp [hc, hact]
  have hfil : s ∈ activeScansFor st.scans c := List.mem_filter.mpr ⟨hmem, hp⟩
  have heq : activeScansFor st.scans c = [s] :=
    len_le_one_mem_eq_singleton _ _ (hInv c) hfil
  simp [createScanRequest, latestActiveScan_of_singleton st.scans c s heq]

theorem createScanRequest_fresh_after_terminal (st : SysState) (c : Nat)
    (hterm : ∀ s ∈ st.scans, s.contract = c → s.status.isTerminal = true) :
    createScanRequest st c =
      ({ id := st.nextScanId, contract := c, status := .pending, createdAt := st.nextTime,
         riskScore := none, error := none },
       { scans := st.scans ++ [{ id := st.nextScanId, contract := c, status := .pending,
                                 createdAt := st.nextTime, riskScore := none, error := none }],
         queue := st.queue ++ [st.nextScanId],
         nextScanId := st.nextScanId + 1, nextTime := st.nextTime + 1 }) := by
  have hfil : activeScansFor st.scans c = [] := by
    apply List.filter_eq_nil_iff.mpr
    intro a ha
    by_cases hc : a.contract = c
    · have hT := hterm a ha hc
      cases hstat : a.status <;> simp_all [ScanStatus.isTerminal, ScanStatus.isActive]
    · simp [hc]
  have hnone : latestActiveScan st.scans c = none := by
    unfold latestActiveScan
    rw [hfil]
    rfl
  simp [createScanRequest, hnone]

theorem createScanRequest_keeps_dedup (st : SysState) (c : Nat) (hInv : DedupInvariant st) :
    DedupInvariant (createScanRequest st c).2 := by
  cases hmatch : latestActiveScan st.scans c with
  | some s =>
    simp only [createScanRequest, hmatch]
    exact hInv
  | none =>
    have hfil : activeScansFor st.scans c = [] := latestActiveScan_none st.scans c hmatch
    simp only [createScanRequest, hmatch]
    intro c'
    simp only [activeScansFor, List.filter_append, List.length_append]
    by_cases hcc : c' = c
    · subst hcc
      have h0 : List.filter (fun s : Scan => s.contract == c' && s.status.isActive) st.scans = [] :=
        hfil
      rw [h0]
      simp only [List.length_nil, Nat.zero_add]
      exact List.length_filter_le _ _
    · have hne : (c == c') = false := beq_eq_false_iff_ne.mpr (fun h => hcc h.symm)
      have hone : List.filter (fun s : Scan => s.contract == c' && s.status.isActive)
          [{ id := st.nextScanId, contract := c, status := .pending,
             createdAt := st.nextTime, riskScore := none, error := none }] = [] := by
        simp [List.filter_cons, hne]
      rw [hone]
      simpa using hInv c'

theorem processScanJob_keeps_dedup (env : WorkerEnv) (st : SysState) (scanId : Nat)
    (address : String) (abi : Option AbiInput) (hInv : DedupInvariant st)
    (hpend : ∀ s ∈ st.scans, s.id = scanId → s.status = .pending) :
    DedupInvariant (processScanJob env st scanId address abi).1 := by
  have hrun : ∀ c,
      (activeScansFor (updateScanStatus st scanId .running none none).scans c).length ≤
        (activeScansFor st.scans c).length := by
    intro c
    apply updateScanStatus_active_le
    intro s hs hid _
    rw [hpend s hs hid]
    rfl
  have hterm_le : ∀ st' status score err c, ScanStatus.isActive status = false →
      (activeScansFor (updateScanStatus st' scanId status score err).scans c).length ≤
        (activeScansFor st'.scans c).length := by
    intro st' status score err c hstat
    apply updateScanStatus_active_le
    intro s hs hid hact
    rw [hstat] at hact
    exact absurd hact (by simp)
  simp only [processScanJob]
  cases hw : workerResult env address abi with
  | ok report =>
    cases hcr : env.cacheReportOk with
    | false =>
      intro c
      exact Nat.le_trans (hterm_le _ _ _ _ c rfl)
        (Nat.le_trans (hterm_le _ _ _ _ c rfl) (Nat.le_trans (hrun c) (hInv c)))
    | true =>
      cases hrisk : env.contractRiskOk with
      | true =>
        intro c
        exact Nat.le_trans (hterm_le _ _ _ _ c rfl) (Nat.le_trans (hrun c) (hInv c))
      | false =>
        intro c
        exact Nat.le_trans (hterm_le _ _ _ _ c rfl)
          (Nat.le_trans (hterm_le _ _ _ _ c rfl) (Nat.le_trans (hrun c) (hInv c)))
  | error e =>
    intro c
    exact Nat.le_trans (hterm_le _ _ _ _ c rfl) (Nat.le_trans (hrun c) (hInv c))

/-! ## Claim C4: deduplicating submission protocol -/

/-- C4: while a contract has a pending or running scan, a new submission
for it returns that very scan and changes neither the scan store nor the
queue; once every scan of the contract is terminal, a submission creates a
fresh pending scan and enqueues exactly its identifier; and the
at-most-one-active-scan-per-contract invariant is preserved both by
submissions and by worker executions that pick up a pending scan, so under
sequential execution it holds at all times. -/
theorem scan_dedup_protocol :
    (∀ st c s, DedupInvariant st → s ∈ st.scans → s.contract = c →
        s.status.isActive = true → createScanRequest st c = (s, st)) ∧
    (∀ st c, (∀ s ∈ st.scans, s.contract = c → s.status.isTerminal = true) →
        createScanRequest st c =
          ({ id := st.nextScanId, contract := c, status := .pending, createdAt := st.nextTime,
             riskScore := none, error := none },
           { scans := st.scans ++ [{ id := st.nextScanId, contract := c, status := .pending,
                                     createdAt := st.nextTime, riskScore := none, error := none }],
             queue := st.queue ++ [st.nextScanId],
             nextScanId := st.nextScanId + 1, nextTime := st.nextTime + 1 })) ∧
    (∀ st c, DedupInvariant st → DedupInvariant (createScanRequest st c).2) ∧
    (∀ env st scanId address abi, DedupInvariant st →
        (∀ s ∈ st.scans, s.id = scanId → s.status = .pending) →
        DedupInvariant (processScanJob env st scanId address abi).1) :=
  ⟨fun st c s hInv hmem hc hact => createScanRequest_returns_active st c s hInv hmem hc hact,
   fun st c hterm => createScanRequest_fresh_after_terminal st c hterm,
   fun st c hInv => createScanRequest_keeps_dedup st c hInv,
   fun env st scanId address abi hInv hpend =>
     processScanJob_keeps_dedup env st scanId address abi hInv hpend⟩

def onePendingState_dedup_proof : DedupInvariant onePendingState :=
  fun _ => List.length_filter_le _ _

def stTerminalScan : SysState :=
  { scans := [{ id := 0, contract := 7, status := .succeeded, createdAt := 0,
                riskScore := some 3, error := none }],
    queue := [0], nextScanId := 1, nextTime := 1 }

/-- Witness for C4 at concrete states: a second submission while a pending
scan exists returns it unchanged; a submission after a terminal scan
creates scan 1 in pending; and the invariant survives a submission and a
worker run. -/
theorem scan_dedup_protocol_witness :
    createScanRequest onePendingState 7 = (pendingScan, onePendingState) ∧
    createScanRequest stTerminalScan 7 =
      ({ id := 1, contract := 7, status := .pending, createdAt := 1,
         riskScore := none, error := none },
       { scans := stTerminalScan.scans ++
           [{ id := 1, contract := 7, status := .pending, createdAt := 1,
              riskScore := none, error := none }],
         queue := stTerminalScan.queue ++ [1], nextScanId := 2, nextTime := 2 }) ∧
    DedupInvariant (createScanRequest onePendingState 7).2 ∧
    DedupInvariant (processScanJob envCacheWriteFails onePendingState 0 "0xaddr" none).1 :=
  ⟨scan_dedup_protocol.1 onePendingState 7 pendingScan onePendingState_dedup_proof
      (by decide) (by decide) (by decide),
   scan_dedup_protocol.2.1 stTerminalScan 7 (by decide),
   scan_dedup_protocol.2.2.1 onePendingState 7 onePendingState_dedup_proof,
   scan_dedup_protocol.2.2.2 envCacheWriteFails onePendingState 0 "0xaddr" none
     onePendingState_dedup_proof (by decide)⟩
